import Mathlib

/-!
Verification development for the pending-dns zone store, DNS handler,
cached resolver, certificate manager and public HTTP server.

Each section embeds the relevant JavaScript source functions as executable
Lean definitions (shallow embedding).  Redis is modelled as an error-free
in-memory store; JSON round-trips of store-written values are modelled
structurally (the code always writes values with JSON.stringify, so a
later JSON.parse never fails); punycode conversions are modelled as the
identity on all-ASCII inputs, which covers every input used by the
theorems below.
-/

/-! ## Base64 (zone-store.js getFullId / parseFullId)

`getFullId` joins name, type and hid with the byte 0x01, base64-encodes
the UTF-8 bytes, applies the URL-safe substitutions slash to underscore and
plus to minus, and strips padding.  `parseFullId` reverses the substitution,
decodes, and splits on 0x01.  We model byte strings as lists of naturals
below 256. -/

/-- Standard base64 alphabet, as produced by Buffer.toString of base64. -/
def b64CharStd (n : Nat) : Char :=
  if n < 26 then Char.ofNat (65 + n)
  else if n < 52 then Char.ofNat (97 + (n - 26))
  else if n < 62 then Char.ofNat (48 + (n - 52))
  else if n = 62 then '+'
  else '/'

/-- The URL-safe substitution of getFullId: slash to underscore, plus to minus. -/
def urlSafeChar (c : Char) : Char :=
  if c = '/' then '_' else if c = '+' then '-' else c

/-- The reverse substitution of parseFullId: underscore to slash, minus to plus. -/
def urlUnsafeChar (c : Char) : Char :=
  if c = '_' then '/' else if c = '-' then '+' else c

/-- Value of a standard base64 alphabet character (Buffer.from base64 decoding). -/
def b64ValStd (c : Char) : Nat :=
  if 'A' ≤ c ∧ c ≤ 'Z' then c.toNat - 65
  else if 'a' ≤ c ∧ c ≤ 'z' then c.toNat - 97 + 26
  else if '0' ≤ c ∧ c ≤ '9' then c.toNat - 48 + 52
  else if c = '+' then 62
  else 63

/-- Bytes to base64 sextets; a trailing group of one or two bytes yields two
or three sextets (the padding characters are stripped by getFullId, so they
are never produced here). -/
def sextets : List Nat → List Nat
  | [] => []
  | [a] => [a / 4, a % 4 * 16]
  | [a, b] => [a / 4, a % 4 * 16 + b / 16, b % 16 * 4]
  | a :: b :: c :: rest =>
      (a / 4) :: (a % 4 * 16 + b / 16) :: (b % 16 * 4 + c / 64) :: (c % 64) :: sextets rest

/-- Base64 sextets back to bytes; trailing groups of two or three sextets
yield one or two bytes (unpadded base64, as Buffer.from accepts). -/
def unsextets : List Nat → List Nat
  | x :: y :: z :: w :: rest =>
      (x * 4 + y / 16) :: (y % 16 * 16 + z / 4) :: (z % 4 * 64 + w) :: unsextets rest
  | [x, y] => [x * 4 + y / 16]
  | [x, y, z] => [x * 4 + y / 16, y % 16 * 16 + z / 4]
  | _ => []

theorem unsextets_sextets : ∀ l : List Nat, (∀ x ∈ l, x < 256) → unsextets (sextets l) = l
  | [], _ => rfl
  | [a], h => by
      have ha : a < 256 := h a (by simp)
      simp only [sextets, unsextets, List.cons.injEq, and_true]
      omega
  | [a, b], h => by
      have ha : a < 256 := h a (by simp)
      have hb : b < 256 := h b (by simp)
      simp only [sextets, unsextets, List.cons.injEq, and_true]
      omega
  | a :: b :: c :: rest, h => by
      have ha : a < 256 := h a (by simp)
      have hb : b < 256 := h b (by simp)
      have hc : c < 256 := h c (by simp)
      have ih := unsextets_sextets rest (fun x hx => h x (by simp [hx]))
      simp only [sextets, unsextets, ih, List.cons.injEq, and_true]
      omega

theorem sextets_lt_64 : ∀ l : List Nat, (∀ x ∈ l, x < 256) → ∀ s ∈ sextets l, s < 64
  | [], _ => by simp [sextets]
  | [a], h => by
      have ha : a < 256 := h a (by simp)
      simp only [sextets]
      intro s hs
      simp only [List.mem_cons, List.not_mem_nil, or_false] at hs
      rcases hs with hs | hs <;> omega
  | [a, b], h => by
      have ha : a < 256 := h a (by simp)
      have hb : b < 256 := h b (by simp)
      simp only [sextets]
      intro s hs
      simp only [List.mem_cons, List.not_mem_nil, or_false] at hs
      rcases hs with hs | hs | hs <;> omega
  | a :: b :: c :: rest, h => by
      have ha : a < 256 := h a (by simp)
      have hb : b < 256 := h b (by simp)
      have hc : c < 256 := h c (by simp)
      have ih := sextets_lt_64 rest (fun x hx => h x (by simp [hx]))
      simp only [sextets]
      intro s hs
      simp only [List.mem_cons] at hs
      rcases hs with hs | hs | hs | hs | hs
      · omega
      · omega
      · omega
      · omega
      · exact ih s hs

theorem b64_char_roundtrip : ∀ n, n < 64 → b64ValStd (urlUnsafeChar (urlSafeChar (b64CharStd n))) = n := by
  decide

/-- Bytes to unpadded URL-safe base64 characters (the encoding of getFullId). -/
def b64urlEncodeBytes (l : List Nat) : List Char :=
  (sextets l).map (fun n => urlSafeChar (b64CharStd n))

/-- URL-safe base64 characters back to bytes (the decoding of parseFullId). -/
def b64urlDecodeChars (cs : List Char) : List Nat :=
  unsextets (cs.map (fun c => b64ValStd (urlUnsafeChar c)))

theorem b64url_decode_encode (l : List Nat) (h : ∀ x ∈ l, x < 256) :
    b64urlDecodeChars (b64urlEncodeBytes l) = l := by
  unfold b64urlDecodeChars b64urlEncodeBytes
  rw [List.map_map]
  have hmap : (sextets l).map ((fun c => b64ValStd (urlUnsafeChar c)) ∘ fun n => urlSafeChar (b64CharStd n))
      = (sextets l).map id := by
    apply List.map_congr_left
    intro s hs
    exact b64_char_roundtrip s (sextets_lt_64 l h s hs)
  rw [hmap, List.map_id]
  exact unsextets_sextets l h

/-- Split a byte string on the separator byte 0x01, mirroring
String.prototype.split of the \x01 character in parseFullId. -/
def splitOnByte : List Nat → List (List Nat)
  | [] => [[]]
  | b :: rest =>
      match splitOnByte rest with
      | [] => [[]]
      | cur :: parts => if b = 1 then [] :: cur :: parts else (b :: cur) :: parts

theorem splitOnByte_ne_nil : ∀ l : List Nat, splitOnByte l ≠ []
  | [] => by simp [splitOnByte]
  | b :: rest => by
      simp only [splitOnByte]
      match hrec : splitOnByte rest with
      | [] => simp
      | cur :: parts =>
          by_cases hb : b = 1 <;> simp [hb]

theorem splitOnByte_no_sep : ∀ l : List Nat, 1 ∉ l → splitOnByte l = [l]
  | [], _ => rfl
  | b :: rest, h => by
      have hb : b ≠ 1 := fun hb => h (by simp [hb])
      have ih := splitOnByte_no_sep rest (fun hm => h (List.mem_cons_of_mem b hm))
      simp only [splitOnByte, ih]
      simp [hb]

theorem splitOnByte_append_sep : ∀ xs rest : List Nat, 1 ∉ xs →
    splitOnByte (xs ++ 1 :: rest) = xs :: splitOnByte rest
  | [], rest, _ => by
      simp only [List.nil_append, splitOnByte]
      match hrec : splitOnByte rest with
      | [] => exact absurd hrec (splitOnByte_ne_nil rest)
      | cur :: parts => simp
  | x :: xs, rest, h => by
      have hx : x ≠ 1 := fun hx => h (by simp [hx])
      have ih := splitOnByte_append_sep xs rest (fun hm => h (List.mem_cons_of_mem x hm))
      rw [List.cons_append]
      simp only [splitOnByte]
      rw [ih]
      simp [hx]

/-- zone-store.js getFullId at byte level: unpadded URL-safe base64 of the
bytes of name, 0x01, type, 0x01, hid. -/
def getFullIdBytes (name ty hid : List Nat) : List Char :=
  b64urlEncodeBytes (name ++ 1 :: (ty ++ 1 :: hid))

/-- zone-store.js parseFullId at byte level: decode, then split on 0x01 and
destructure the first three components.  The source leaves missing
components undefined; that case is modelled as none. -/
def parseFullIdBytes (cs : List Char) : Option (List Nat × List Nat × List Nat) :=
  match splitOnByte (b64urlDecodeChars cs) with
  | name :: ty :: hid :: _ => some (name, ty, hid)
  | _ => none

/-- C3.  Record-id round-trip: for every triple of byte strings free of the
0x01 separator, parseFullId inverts getFullId, recovering exactly the
name, type and hid; by construction the id is unpadded URL-safe base64 of
the byte string name 0x01 type 0x01 hid. -/
theorem fullId_roundtrip (name ty hid : List Nat)
    (hbytes : ∀ x ∈ name ++ 1 :: (ty ++ 1 :: hid), x < 256)
    (hn : 1 ∉ name) (ht : 1 ∉ ty) (hh : 1 ∉ hid) :
    parseFullIdBytes (getFullIdBytes name ty hid) = some (name, ty, hid) := by
  unfold parseFullIdBytes getFullIdBytes
  rw [b64url_decode_encode _ hbytes]
  rw [splitOnByte_append_sep name (ty ++ 1 :: hid) hn]
  rw [splitOnByte_append_sep ty hid ht]
  rw [splitOnByte_no_sep hid hh]

/-- Witness for C3 at a concrete id: name com.example (reversed form), type
A, hid aZ9.  All hypotheses hold by computation. -/
theorem fullId_roundtrip_witness :
    (∀ x ∈ ([99, 111, 109] ++ 1 :: ([65] ++ 1 :: [97, 90, 57]) : List Nat), x < 256) ∧
    (1 : Nat) ∉ ([99, 111, 109] : List Nat) ∧
    (1 : Nat) ∉ ([65] : List Nat) ∧
    (1 : Nat) ∉ ([97, 90, 57] : List Nat) ∧
    parseFullIdBytes (getFullIdBytes [99, 111, 109] [65] [97, 90, 57]) =
      some ([99, 111, 109], [65], [97, 90, 57]) :=
  ⟨by decide, by decide, by decide, by decide,
    fullId_roundtrip [99, 111, 109] [65] [97, 90, 57] (by decide)
      (by decide) (by decide) (by decide)⟩

/-! ## UTF-8 and string-level ids

Buffer.from of a JavaScript string yields its UTF-8 bytes; the encoder below
is the standard UTF-8 encoding of a Unicode code point. -/

/-- UTF-8 bytes of one character. -/
def utf8Bytes (c : Char) : List Nat :=
  let n := c.toNat
  if n < 128 then [n]
  else if n < 2048 then [192 + n / 64, 128 + n % 64]
  else if n < 65536 then [224 + n / 4096, 128 + n / 64 % 64, 128 + n % 64]
  else [240 + n / 262144, 128 + n / 4096 % 64, 128 + n / 64 % 64, 128 + n % 64]

/-- UTF-8 bytes of a string. -/
def strBytes (s : String) : List Nat :=
  s.data.flatMap utf8Bytes

/-- zone-store.js getFullId on strings. -/
def getFullIdStr (name ty hid : String) : String :=
  String.mk (getFullIdBytes (strBytes name) (strBytes ty) (strBytes hid))

/-! ## JSON values and the Redis store model

Record values are JSON arrays of strings, numbers and booleans.  The store
is modelled as an error-free in-memory Redis: hashes, sets, sorted sets and
per-key TTLs.  Keys deleted down to emptiness disappear, as in Redis. -/

/-- A JSON scalar as stored inside record value arrays. -/
inductive JVal
  | s (v : String)
  | n (v : Int)
  | b (v : Bool)
deriving DecidableEq, Repr

/-- JSON.stringify of a scalar (string escaping is not needed for the
values exercised here). -/
def jsonVal : JVal → String
  | .s v => "\"" ++ v ++ "\""
  | .n v => toString v
  | .b v => if v then "true" else "false"

/-- Array.prototype.join with a comma separator. -/
def joinComma : List String → String
  | [] => ""
  | [x] => x
  | x :: xs => x ++ "," ++ joinComma xs

/-- JSON.stringify of a value array. -/
def jsonArr (value : List JVal) : String :=
  "[" ++ joinComma (value.map jsonVal) ++ "]"

/-- JavaScript truthiness of a JSON scalar. -/
def JVal.truthy : JVal → Bool
  | .s v => v ≠ ""
  | .n v => v ≠ 0
  | .b v => v

/-- Truthiness of value at an index, absent indices being undefined (falsy). -/
def jvalTruthyAt (l : List JVal) (i : Nat) : Bool :=
  match l.get? i with
  | some v => v.truthy
  | none => false

/-- A value stored in a hash field: either a JSON array (record values) or a
health-result JSON object as written by the health worker. -/
inductive HashVal
  | arr (v : List JVal)
  | health (status : Bool) (error : Option String) (code : Option String)
deriving DecidableEq, Repr

/-- Association list lookup by string key. -/
def alGet {α : Type} (l : List (String × α)) (k : String) : Option α :=
  (l.find? (fun p => p.1 == k)).map (·.2)

/-- Association list update or append. -/
def alSet {α : Type} : List (String × α) → String → α → List (String × α)
  | [], k, v => [(k, v)]
  | (k', v') :: rest, k, v =>
      if k' == k then (k, v) :: rest else (k', v') :: alSet rest k v

/-- Association list removal. -/
def alRemove {α : Type} (l : List (String × α)) (k : String) : List (String × α) :=
  l.filter (fun p => p.1 != k)

/-- The error-free Redis model. -/
structure RStore where
  hashes : List (String × List (String × HashVal)) := []
  sets : List (String × List String) := []
  zsets : List (String × List (String × Nat)) := []
  ttls : List (String × Nat) := []
deriving DecidableEq, Repr

def RStore.hget (st : RStore) (key field : String) : Option HashVal :=
  alGet ((alGet st.hashes key).getD []) field

def RStore.hgetall (st : RStore) (key : String) : List (String × HashVal) :=
  (alGet st.hashes key).getD []

def RStore.hsetnx (st : RStore) (key field : String) (v : HashVal) : RStore × Bool :=
  let h := (alGet st.hashes key).getD []
  if (alGet h field).isSome then (st, false)
  else ({ st with hashes := alSet st.hashes key (alSet h field v) }, true)

def RStore.hset (st : RStore) (key field : String) (v : HashVal) : RStore :=
  let h := (alGet st.hashes key).getD []
  { st with hashes := alSet st.hashes key (alSet h field v) }

def RStore.hdel (st : RStore) (key field : String) : RStore × Bool :=
  let h := (alGet st.hashes key).getD []
  let existed := (alGet h field).isSome
  let h2 := alRemove h field
  if h2.isEmpty then ({ st with hashes := alRemove st.hashes key }, existed)
  else ({ st with hashes := alSet st.hashes key h2 }, existed)

def RStore.existsKey (st : RStore) (key : String) : Bool :=
  (alGet st.hashes key).isSome || (alGet st.sets key).isSome || (alGet st.zsets key).isSome

def RStore.sadd (st : RStore) (key member : String) : RStore :=
  let s := (alGet st.sets key).getD []
  if s.contains member then st
  else { st with sets := alSet st.sets key (s ++ [member]) }

def RStore.srem (st : RStore) (key member : String) : RStore :=
  let s := (alGet st.sets key).getD []
  let s2 := s.filter (fun m => m != member)
  if s2.isEmpty then { st with sets := alRemove st.sets key }
  else { st with sets := alSet st.sets key s2 }

def RStore.sismember (st : RStore) (key member : String) : Bool :=
  ((alGet st.sets key).getD []).contains member

def RStore.zadd (st : RStore) (key : String) (score : Nat) (member : String) : RStore :=
  let z := (alGet st.zsets key).getD []
  { st with zsets := alSet st.zsets key (alSet z member score) }

def RStore.zrem (st : RStore) (key member : String) : RStore :=
  let z := (alGet st.zsets key).getD []
  let z2 := alRemove z member
  if z2.isEmpty then { st with zsets := alRemove st.zsets key }
  else { st with zsets := alSet st.zsets key z2 }

def RStore.setTtl (st : RStore) (key : String) (seconds : Nat) : RStore :=
  { st with ttls := alSet st.ttls key seconds }

/-! ## Stable sort

Node's Array.prototype.sort is stable; it is modelled by a stable insertion
sort, which produces the same output as any stable sort for a total
comparator. -/

/-- Insert after every element that compares less-or-equal (stable). -/
def insertIn {α : Type} (le : α → α → Bool) (x : α) : List α → List α
  | [] => [x]
  | y :: ys => if le y x then y :: insertIn le x ys else x :: y :: ys

def insertionSortAux {α : Type} (le : α → α → Bool) : List α → List α → List α
  | acc, [] => acc
  | acc, x :: xs => insertionSortAux le (insertIn le x acc) xs

/-- Stable sort by a boolean comparator. -/
def insertionSort {α : Type} (le : α → α → Bool) (l : List α) : List α :=
  insertionSortAux le [] l

theorem insertIn_length {α : Type} (le : α → α → Bool) (x : α) :
    ∀ l : List α, (insertIn le x l).length = l.length + 1
  | [] => rfl
  | y :: ys => by
      simp only [insertIn]
      by_cases h : le y x = true <;> simp [h, insertIn_length le x ys]

theorem insertionSortAux_length {α : Type} (le : α → α → Bool) :
    ∀ l acc : List α, (insertionSortAux le acc l).length = acc.length + l.length
  | [], acc => by simp [insertionSortAux]
  | x :: xs, acc => by
      simp only [insertionSortAux, List.length_cons]
      rw [insertionSortAux_length le xs (insertIn le x acc), insertIn_length]
      omega

theorem insertionSort_length {α : Type} (le : α → α → Bool) (l : List α) :
    (insertionSort le l).length = l.length := by
  unfold insertionSort
  rw [insertionSortAux_length]
  simp

/-! ## String primitives

Structural character-list implementations of the JavaScript string
operations used by the sources (split, trim, case mapping), so that every
definition evaluates inside the kernel. -/

/-- Split a character list on a separator character (String.prototype.split
with a single-character separator). -/
def splitChar (sep : Char) : List Char → List (List Char)
  | [] => [[]]
  | c :: rest =>
      match splitChar sep rest with
      | [] => [[]]
      | cur :: parts => if c = sep then [] :: cur :: parts else (c :: cur) :: parts

/-- Whitespace for String.prototype.trim (the characters relevant here). -/
def isSpaceChar (c : Char) : Bool :=
  c = ' ' ∨ c = '\t' ∨ c = '\n' ∨ c = '\r'

/-- String.prototype.trim. -/
def strTrim (s : String) : String :=
  String.mk (((s.data.dropWhile isSpaceChar).reverse.dropWhile isSpaceChar).reverse)

/-- String.prototype.toLowerCase (ASCII case mapping). -/
def strLower (s : String) : String :=
  String.mk (s.data.map Char.toLower)

/-- String.prototype.toUpperCase (ASCII case mapping). -/
def strUpper (s : String) : String :=
  String.mk (s.data.map Char.toUpper)

/-- String.prototype.split on the dot character. -/
def splitDots (s : String) : List String :=
  (splitChar '.' s.data).map String.mk

/-- Array.prototype.join with a dot separator. -/
def joinDot : List String → String
  | [] => ""
  | [x] => x
  | x :: xs => x ++ "." ++ joinDot xs

/-- String.prototype.endsWith. -/
def strEndsWith (s suffix : String) : Bool :=
  suffix.data.isSuffixOf s.data

/-- Drop the given number of characters from the end of a string. -/
def strDropRight (s : String) (n : Nat) : String :=
  String.mk (s.data.take (s.data.length - n))

/-! ## Zone store (zone-store.js)

Domain names are reversed at the label level for storage.  punycode
toASCII and toUnicode act as the identity on the all-ASCII domains used
throughout; they are modelled as such. -/

namespace ZoneStore

/-- The type order list of zone-store.js; allowedTypes is its set. -/
def orderList : List String :=
  ["A", "AAAA", "ANAME", "CNAME", "MX", "TXT", "CAA", "URL", "NS"]

def allowedTypes : List String := orderList

/-- zone-store.js domainToName: lowercase, trim, split on dots, trim each
label, reverse, re-join (punycode.toASCII modelled as identity). -/
def domainToName (domain : String) : String :=
  let decoded := strTrim (strLower domain)
  joinDot (((splitDots decoded).map strTrim).reverse)

/-- zone-store.js nameToDomain, the reverse direction (punycode.toUnicode
modelled as identity). -/
def nameToDomain (name : String) : String :=
  let encoded := strTrim (strLower name)
  joinDot (((splitDots encoded).map strTrim).reverse)

/-- tools.js normalizeDomain: lowercase and trim; the punycode branch for
domains starting with xn-- is the identity on the inputs used here. -/
def normalizeDomain (domain : String) : String :=
  strTrim (strLower domain)

/-- zone-store.js resolveZone: fuse the two leftmost labels of the reversed
name, then walk suffixes from the shortest, returning the first whose zone
set key exists. -/
def resolveZone (st : RStore) (name : String) : Option String :=
  let parts0 := splitDots name
  let main := joinDot (parts0.take 2)
  let parts := (main :: parts0.drop 2).reverse
  (List.range parts.length).findSome? (fun i =>
    let subName := joinDot ((parts.drop i).reverse)
    if st.existsKey ("d:" ++ subName ++ ":z") then some subName else none)

/-- zone-store.js getsubdomain. -/
def getsubdomain (zoneDomain : Option String) (domain : String) : String :=
  match zoneDomain with
  | none => domain
  | some z =>
      if z = domain then ""
      else if z.length < domain.length ∧ strEndsWith domain ("." ++ z) then
        strDropRight domain (z.length + 1)
      else domain

/-- A parsed resource record entry as returned by resolve and list. -/
structure Entry where
  id : String
  zone : Option String
  subdomain : Option String
  domain : String
  type : String
  value : List JVal
  wildcard : Option String := none
  health : Option HashVal := none
deriving DecidableEq, Repr

/-- Value array of a stored hash field; record hashes only ever hold
JSON arrays. -/
def hashValArr : HashVal → List JVal
  | .arr v => v
  | .health _ _ _ => []

/-- zone-store.js parseEntry.  JSON.parse of a store-written value is
modelled structurally, so the catch branch is unreachable; in short mode
the subdomain field is omitted. -/
def parseEntry (name : String) (zoneDomain : Option String) (domain ty : String)
    (short : Bool) (hid : String) (value : HashVal) : Entry :=
  if short then
    { id := getFullIdStr name ty hid, zone := zoneDomain, subdomain := none,
      domain, type := ty, value := hashValArr value }
  else
    { id := getFullIdStr name ty hid, zone := zoneDomain,
      subdomain := some (getsubdomain zoneDomain domain),
      domain, type := ty, value := hashValArr value }

/-- Raw string of a stored hash value, as used by the localeCompare sort of
parseHashRecord (modelled as code-point comparison of the JSON text). -/
def hashValRaw : HashVal → String
  | .arr v => jsonArr v
  | .health status _ _ => if status then "true" else "false"

/-- zone-store.js parseHashRecord: sort the hash fields by their raw value
text, then parse each into an Entry. -/
def parseHashRecord (zone : Option String) (name domain ty : String) (short : Bool)
    (record : List (String × HashVal)) : List Entry :=
  let zoneDomain := zone.map nameToDomain
  (insertionSort (fun a b => decide (hashValRaw a.2 ≤ hashValRaw b.2)) record).map
    (fun e => parseEntry name zoneDomain domain ty short e.1 e.2)

/-- The zone string interpolated into a health key; a missing zone prints as
the string false, as JavaScript template interpolation does. -/
def healthKeyZone : Option String → String
  | some z => z
  | none => "false"

/-- The zone used inside checkHealthStatus: the already-resolved zone, or
resolveZone on demand when resolve ran in short mode. -/
def attachZoneEff (st : RStore) (name : String) : Option String → Option String
  | some z => some z
  | none => resolveZone st name

/-- The checkHealthStatus loop body of zone-store.js resolve: for A and AAAA
entries with a health-check URI, attach the stored health result; a zone not
yet resolved (short mode) is resolved on demand. -/
def attachHealth (st : RStore) (name : String) (zone : Option String) (e : Entry) : Entry :=
  if (e.type = "AAAA" ∨ e.type = "A") ∧ jvalTruthyAt e.value 1 then
    match st.hget "d:health:r" (healthKeyZone (attachZoneEff st name zone) ++ ":" ++ e.id) with
    | some hv => { e with health := some hv }
    | none => e
  else e

/-- The wildcard key stem of zone-store.js resolve: the trailing dot-label of
the reversed name replaced by a dot-star (name.replace of a trailing
dot-label regular expression). -/
def wildcardName (name : String) : String :=
  let parts := splitDots name
  match parts.getLast? with
  | some last =>
      if parts.length ≥ 2 ∧ last ≠ "" then
        joinDot (parts.dropLast ++ ["*"])
      else name
  | none => name

/-- The zone argument of resolve: resolved unless in short mode. -/
def resolveZoneArg (st : RStore) (short : Bool) (name : String) : Option String :=
  if ¬ short then resolveZone st name else none

/-- The parsed entries of the exact record hash consulted by resolve. -/
def resolveExact (st : RStore) (domain ty : String) (short : Bool) : List Entry :=
  parseHashRecord (resolveZoneArg st short (domainToName domain))
    (domainToName domain) domain ty short
    (st.hgetall ("d:" ++ domainToName domain ++ ":r:" ++ ty))

/-- The parsed entries of the wildcard record hash consulted by resolve. -/
def resolveWild (st : RStore) (domain ty : String) (short : Bool) : List Entry :=
  parseHashRecord (resolveZoneArg st short (domainToName domain))
    (wildcardName (domainToName domain)) domain ty short
    (st.hgetall ("d:" ++ wildcardName (domainToName domain) ++ ":r:" ++ ty))

/-- zone-store.js resolve: exact record hash first; only when the exact
lookup parses to no entries is the wildcard key consulted, and wildcard
entries are tagged with the wildcard domain.  checkHealthStatus is applied
to whichever entry list is returned. -/
def resolve (st : RStore) (domain ty0 : String) (short : Bool) : Option (List Entry) :=
  if ¬ (allowedTypes.contains (strUpper (strTrim ty0)) ∧ domainToName domain ≠ "") then none
  else if resolveExact st domain (strUpper (strTrim ty0)) short ≠ [] then
    some ((resolveExact st domain (strUpper (strTrim ty0)) short).map
      (attachHealth st (domainToName domain) (resolveZoneArg st short (domainToName domain))))
  else if resolveWild st domain (strUpper (strTrim ty0)) short ≠ [] then
    some (((resolveWild st domain (strUpper (strTrim ty0)) short).map
      (fun e => { e with wildcard := some (nameToDomain (wildcardName (domainToName domain))) })).map
      (attachHealth st (domainToName domain) (resolveZoneArg st short (domainToName domain))))
  else none

/-- zone-store.js delRaw.  The source multi-execs an hdel and an exists and
then guards the zone-set srem on the exec reply of the exists command; that
guard reads reply slot 0 (the per-command error) twice instead of slot 1
(the exists count), so with an error-free store it always holds and the
srem always runs, whether or not the record hash still has fields.  The
returned flag is whether the hdel removed an existing field. -/
def delRaw (st : RStore) (zone name ty0 hid : String) : RStore × Bool :=
  let ty := strUpper (strTrim ty0)
  if ¬ (allowedTypes.contains ty ∧ name ≠ "") then (st, false)
  else
    let recordKey := "d:" ++ name ++ ":r:" ++ ty
    let del := st.hdel recordKey hid
    let st2 := del.1.srem ("d:" ++ zone ++ ":z") recordKey
    (st2, del.2)

structure AddOptions where
  expire : Option Nat := none
deriving DecidableEq, Repr

/-- zone-store.js add.  The random shortid and Date.now are passed in as
hid and now.  Writes the record field with hsetnx, adds the record key to
the zone index set, maintains the health queue for A and AAAA, applies the
optional expire, and returns the new id exactly when the hsetnx created
the field. -/
def add (st : RStore) (zone0 subdomain ty0 : String) (value : List JVal)
    (options : AddOptions) (hid : String) (now : Nat) : RStore × Option String :=
  let domain := normalizeDomain (if subdomain = "" then zone0 else subdomain ++ "." ++ zone0)
  let name := domainToName domain
  let zone := domainToName zone0
  let ty := strUpper (strTrim ty0)
  if value.isEmpty then (st, none)
  else if ¬ (allowedTypes.contains ty ∧ name ≠ "") then (st, none)
  else
    let recordKey := "d:" ++ name ++ ":r:" ++ ty
    let id := getFullIdStr name ty hid
    let setRes := st.hsetnx recordKey hid (.arr value)
    let st2 := setRes.1.sadd ("d:" ++ zone ++ ":z") recordKey
    let st3 :=
      if ty = "AAAA" ∨ ty = "A" then
        let healthKey := zone ++ ":" ++ id
        if jvalTruthyAt value 1 then st2.zadd "d:health:z" now healthKey
        else ((st2.zrem "d:health:z" healthKey).hdel "d:health:r" healthKey).1
      else st2
    let st4 := match options.expire with
      | some e => st3.setTtl recordKey e
      | none => st3
    if setRes.2 then (st4, some id) else (st4, none)

/-- zone-store.js update, on the unchanged-name-and-type path: overwrite the
field with hset at the same hid, re-add the record key to the zone set and
maintain the health queue; returns the unchanged id. -/
def updateSameKey (st : RStore) (zone0 : String) (name ty hid : String)
    (value : List JVal) (now : Nat) : RStore × Option String :=
  let zone := domainToName zone0
  let id := getFullIdStr name ty hid
  let recordKey := "d:" ++ name ++ ":r:" ++ ty
  let st1 := st.hset recordKey hid (.arr value)
  let st2 := st1.sadd ("d:" ++ zone ++ ":z") recordKey
  let st3 :=
    if ty = "AAAA" ∨ ty = "A" then
      let healthKey := zone ++ ":" ++ id
      if jvalTruthyAt value 1 then st2.zadd "d:health:z" now healthKey
      else ((st2.zrem "d:health:z" healthKey).hdel "d:health:r" healthKey).1
    else st2
  (st3, some id)

end ZoneStore

/-! ## C1: the zone index after a partial delete -/

/-- State after adding an apex A record 1.2.3.4 with hid h1 to zone
example.com. -/
def c1State1 : RStore :=
  (ZoneStore.add {} "example.com" "" "A" [.s "1.2.3.4"] {} "h1" 1000).1

/-- State after also adding an apex A record 1.2.3.5 with hid h2. -/
def c1State2 : RStore :=
  (ZoneStore.add c1State1 "example.com" "" "A" [.s "1.2.3.5"] {} "h2" 1001).1

/-- State after delRaw of only the first of the two fields. -/
def c1State3 : RStore :=
  (ZoneStore.delRaw c1State2 "com.example" "com.example" "A" "h1").1

/-- C1.  The zone index invariant fails on the code: deleting one of two
fields of the apex A record hash removes the record key from the zone index
set even though the hash still holds a field, because delRaw reads the
error slot of the exists reply twice and so unconditionally srem-s the key.
Before the delete the key is in the zone set; after it the record hash is
still non-empty, its second field is still present, yet the key is gone
from the zone set. -/
theorem zoneIndex_partial_delete_drops_key :
    c1State2.sismember "d:com.example:z" "d:com.example:r:A" = true ∧
    c1State3.hgetall "d:com.example:r:A" ≠ [] ∧
    (c1State3.hget "d:com.example:r:A" "h2").isSome = true ∧
    c1State3.sismember "d:com.example:z" "d:com.example:r:A" = false := by
  refine ⟨by decide, by decide, by decide, by decide⟩

/-! ## C2: wildcard precedence in resolve -/

theorem parseHashRecord_length (zone : Option String) (name domain ty : String)
    (short : Bool) (record : List (String × HashVal)) :
    (ZoneStore.parseHashRecord zone name domain ty short record).length = record.length := by
  unfold ZoneStore.parseHashRecord
  rw [List.length_map, insertionSort_length]

theorem parseHashRecord_wildcard_none (zone : Option String) (name domain ty : String)
    (short : Bool) (record : List (String × HashVal)) :
    ∀ e ∈ ZoneStore.parseHashRecord zone name domain ty short record, e.wildcard = none := by
  intro e he
  unfold ZoneStore.parseHashRecord at he
  rw [List.mem_map] at he
  obtain ⟨p, _, rfl⟩ := he
  unfold ZoneStore.parseEntry
  by_cases h : short = true <;> simp [h]

theorem attachHealth_wildcard (st : RStore) (name : String) (zone : Option String)
    (e : ZoneStore.Entry) :
    (ZoneStore.attachHealth st name zone e).wildcard = e.wildcard := by
  unfold ZoneStore.attachHealth
  split
  · split <;> rfl
  · rfl

/-- The exact record key consulted by resolve for a domain and type. -/
def exactRecordKey (domain ty0 : String) : String :=
  "d:" ++ ZoneStore.domainToName domain ++ ":r:" ++ strUpper (strTrim ty0)

/-- The wildcard record key consulted by resolve when the exact key is empty. -/
def wildcardRecordKey (domain ty0 : String) : String :=
  "d:" ++ ZoneStore.wildcardName (ZoneStore.domainToName domain) ++ ":r:" ++ strUpper (strTrim ty0)

/-- The wildcard domain with which wildcard-matched entries are tagged. -/
def wildcardTag (domain : String) : String :=
  ZoneStore.nameToDomain (ZoneStore.wildcardName (ZoneStore.domainToName domain))

/-- C2.  Wildcard precedence: for every store, domain with a non-empty
reversed name and allowed record type, resolve returns the exact entries,
untagged, whenever the exact record hash is non-empty; it returns entries
tagged with the wildcard domain when the exact hash is empty and the
wildcard hash is not; and whenever it returns any wildcard-tagged entry the
exact record hash is empty, so the wildcard key is consulted only in the
absence of an exact record. -/
theorem resolve_wildcard_precedence (st : RStore) (domain ty0 : String) (short : Bool)
    (hty : strUpper (strTrim ty0) ∈ ZoneStore.allowedTypes)
    (hname : ZoneStore.domainToName domain ≠ "") :
    (st.hgetall (exactRecordKey domain ty0) ≠ [] →
      ∃ l, ZoneStore.resolve st domain ty0 short = some l ∧ l ≠ [] ∧
        ∀ e ∈ l, e.wildcard = none) ∧
    (st.hgetall (exactRecordKey domain ty0) = [] →
      st.hgetall (wildcardRecordKey domain ty0) ≠ [] →
      ∃ l, ZoneStore.resolve st domain ty0 short = some l ∧ l ≠ [] ∧
        ∀ e ∈ l, e.wildcard = some (wildcardTag domain)) ∧
    (∀ l, ZoneStore.resolve st domain ty0 short = some l →
      (∃ e ∈ l, e.wildcard.isSome) → st.hgetall (exactRecordKey domain ty0) = []) := by
  have hxkey : exactRecordKey domain ty0 =
      "d:" ++ ZoneStore.domainToName domain ++ ":r:" ++ strUpper (strTrim ty0) := rfl
  have hwkey : wildcardRecordKey domain ty0 =
      "d:" ++ ZoneStore.wildcardName (ZoneStore.domainToName domain) ++ ":r:" ++
        strUpper (strTrim ty0) := rfl
  have hxne : st.hgetall (exactRecordKey domain ty0) ≠ [] →
      ZoneStore.resolveExact st domain (strUpper (strTrim ty0)) short ≠ [] := by
    intro hr hcontra
    have hlen := parseHashRecord_length
      (ZoneStore.resolveZoneArg st short (ZoneStore.domainToName domain))
      (ZoneStore.domainToName domain) domain (strUpper (strTrim ty0)) short
      (st.hgetall (exactRecordKey domain ty0))
    unfold ZoneStore.resolveExact at hcontra
    rw [← hxkey] at hcontra
    rw [hcontra] at hlen
    exact hr (List.eq_nil_of_length_eq_zero hlen.symm)
  have hxe : st.hgetall (exactRecordKey domain ty0) = [] →
      ZoneStore.resolveExact st domain (strUpper (strTrim ty0)) short = [] := by
    intro hr
    unfold ZoneStore.resolveExact
    rw [← hxkey, hr]
    rfl
  have hwne : st.hgetall (wildcardRecordKey domain ty0) ≠ [] →
      ZoneStore.resolveWild st domain (strUpper (strTrim ty0)) short ≠ [] := by
    intro hr hcontra
    have hlen := parseHashRecord_length
      (ZoneStore.resolveZoneArg st short (ZoneStore.domainToName domain))
      (ZoneStore.wildcardName (ZoneStore.domainToName domain)) domain
      (strUpper (strTrim ty0)) short (st.hgetall (wildcardRecordKey domain ty0))
    unfold ZoneStore.resolveWild at hcontra
    rw [← hwkey] at hcontra
    rw [hcontra] at hlen
    exact hr (List.eq_nil_of_length_eq_zero hlen.symm)
  have hcontains : ZoneStore.allowedTypes.contains (strUpper (strTrim ty0)) = true :=
    List.elem_iff.mpr hty
  have hguard : ¬¬ (ZoneStore.allowedTypes.contains (strUpper (strTrim ty0)) = true ∧
      ZoneStore.domainToName domain ≠ "") :=
    fun hc => hc ⟨hcontains, hname⟩
  refine ⟨?_, ?_, ?_⟩
  · intro hx
    have hpr := hxne hx
    unfold ZoneStore.resolve
    rw [if_neg hguard, if_pos hpr]
    refine ⟨_, rfl, by simpa using hpr, ?_⟩
    intro e he
    rw [List.mem_map] at he
    obtain ⟨e0, he0, rfl⟩ := he
    rw [attachHealth_wildcard]
    exact parseHashRecord_wildcard_none _ _ _ _ _ _ e0 he0
  · intro hx hw
    have hprx := hxe hx
    have hprw := hwne hw
    unfold ZoneStore.resolve
    rw [if_neg hguard, if_neg (by simpa using hprx), if_pos hprw]
    refine ⟨_, rfl, by simpa using hprw, ?_⟩
    intro e he
    rw [List.mem_map] at he
    obtain ⟨e1, he1, rfl⟩ := he
    rw [List.mem_map] at he1
    obtain ⟨e0, _, rfl⟩ := he1
    rw [attachHealth_wildcard]
    rfl
  · intro l hl hex
    by_contra hx
    have hpr := hxne hx
    unfold ZoneStore.resolve at hl
    rw [if_neg hguard, if_pos hpr] at hl
    obtain ⟨e, he, hwild⟩ := hex
    rw [Option.some_inj] at hl
    rw [← hl] at he
    rw [List.mem_map] at he
    obtain ⟨e0, he0, rfl⟩ := he
    rw [attachHealth_wildcard] at hwild
    rw [parseHashRecord_wildcard_none _ _ _ _ _ _ e0 he0] at hwild
    simp at hwild

/-- A store holding an exact CNAME for www.example.com and a wildcard CNAME
for star.test.example.com, with the zone set for example.com. -/
def c2Store : RStore :=
  { hashes := [("d:com.example.www:r:CNAME", [("h1", .arr [.s "example.com"])]),
               ("d:com.example.test.*:r:CNAME", [("h2", .arr [.s "example.com"])])],
    sets := [("d:com.example:z", ["d:com.example.www:r:CNAME"])] }

/-- Witness for C2 at a concrete store and query: the exact hash for
www.example.com CNAME is non-empty, so resolve returns untagged entries. -/
theorem resolve_wildcard_precedence_witness :
    strUpper (strTrim "CNAME") ∈ ZoneStore.allowedTypes ∧
    ZoneStore.domainToName "www.example.com" ≠ "" ∧
    c2Store.hgetall (exactRecordKey "www.example.com" "CNAME") ≠ [] ∧
    ∃ l, ZoneStore.resolve c2Store "www.example.com" "CNAME" true = some l ∧ l ≠ [] ∧
      ∀ e ∈ l, e.wildcard = none :=
  ⟨by decide, by decide, by decide,
    (resolve_wildcard_precedence c2Store "www.example.com" "CNAME" true (by decide)
      (by decide)).1 (by decide)⟩

/-! ## DNS handler (dns-handler.js)

The handler is embedded against abstract collaborators: the zone store
resolve, the cached resolver, ipaddr.parse and punycode.toASCII are
functions of the environment, and Math.random is a stream of naturals
consumed by the Fisher-Yates shuffle.  The per-entry serialization switch
is factored into entryStep (push an answer, push with a CNAME chase, abort
the whole question, or skip) and the loop into serializeEntries. -/

/-- String coercion of a JSON scalar. -/
def jvalStr : JVal → String
  | .s v => v
  | .n v => toString v
  | .b v => if v then "true" else "false"

/-- Numeric coercion of a JSON scalar. -/
def jvalInt : JVal → Int
  | .n v => v
  | .s _ => 0
  | .b v => if v then 1 else 0

/-- A resolve result entry as consumed by the DNS handler.  health is the
status field of an attached health result (none when no health result is
attached). -/
structure HEntry where
  domain : String := ""
  type : String := ""
  zone : String := ""
  value : List JVal := []
  health : Option Bool := none
deriving DecidableEq, Repr

/-- Swap two positions of a list (the body of the Fisher-Yates loop). -/
def listSwap {α : Type} (l : List α) (i j : Nat) : List α :=
  match l.get? i, l.get? j with
  | some a, some b => (l.set i b).set j a
  | _, _ => l

/-- dns-handler.js shuffle, the Fisher-Yates loop: at each step the current
index decreases and is swapped with a random index below it; the random
draws are supplied as a function of the current index. -/
def fisherYates {α : Type} (rand : Nat → Nat) : Nat → List α → List α
  | 0, arr => arr
  | n + 1, arr => fisherYates rand n (listSwap arr n (rand (n + 1) % (n + 1)))

def shuffle {α : Type} (rand : Nat → Nat) (arr : List α) : List α :=
  fisherYates rand arr.length arr

/-- An entry counts as healthy when it has no health result or its status
is true (dns-handler.js filterUnhealthy predicate). -/
def isHealthyEntry (e : HEntry) : Bool :=
  match e.health with
  | none => true
  | some b => b

/-- dns-handler.js filterUnhealthy: keep healthy entries, but if none are
healthy return the whole list unchanged (fail-open). -/
def filterUnhealthy (list : List HEntry) : List HEntry :=
  if list.isEmpty then list
  else if list.any isHealthyEntry then list.filter isHealthyEntry
  else list

/-- MX priority of an entry: the numeric coercion of value index 1. -/
def mxPriority (e : HEntry) : Int :=
  jvalInt (e.value.getD 1 (.n 0))

/-- The per-type record post-processing switch of processQuestion as first
published: the randomization cases are the literal strings A and AAAAA of
the source (the second never matches the resolve type AAAA), and MX records
are sorted ascending by priority.  Applied only to lists of length above
one. -/
def postprocessRecords (rand : Nat → Nat) (ty : String) (records : List HEntry) : List HEntry :=
  if records.length > 1 then
    if ty = "A" ∨ ty = "AAAAA" then shuffle rand records
    else if ty = "MX" then
      insertionSort (fun a b => decide (mxPriority a ≤ mxPriority b)) records
    else records
  else records

/-- The same switch in the health-filtering revision of the handler, where
the A and AAAAA cases shuffle the filterUnhealthy image of the records. -/
def postprocessRecordsFiltered (rand : Nat → Nat) (ty : String) (records : List HEntry) :
    List HEntry :=
  if records.length > 1 then
    if ty = "A" ∨ ty = "AAAAA" then shuffle rand (filterUnhealthy records)
    else if ty = "MX" then
      insertionSort (fun a b => decide (mxPriority a ≤ mxPriority b)) records
    else records
  else records

/-- TXT record wire data: a single string below 128 characters, otherwise
chunks of at most 84 characters. -/
inductive TxtData
  | single (s : String)
  | chunks (l : List String)
deriving DecidableEq, Repr

/-- Chunking loop: cap is the remaining capacity of the open chunk, acc its
characters in reverse. -/
def chunkAux (cap : Nat) (acc : List Char) : List Char → List (List Char)
  | [] => [acc.reverse]
  | c :: rest =>
      match cap with
      | 0 => acc.reverse :: chunkAux 83 [c] rest
      | cap' + 1 => chunkAux cap' (c :: acc) rest

/-- dns-handler.js formatTXTData: strings below 128 characters stay single,
longer ones are split into chunks of at most 84 characters. -/
def formatTXTData (data : String) : TxtData :=
  if data.length < 128 then .single data
  else
    match data.data with
    | [] => .chunks []
    | c :: rest => .chunks ((chunkAux 83 [c] rest).map String.mk)

/-- A serialized DNS answer. -/
inductive Answer
  | a (name : String) (addr : JVal)
  | aaaa (name addr : String)
  | cname (name target : String)
  | nsAns (name nsDomain : String)
  | txt (name : String) (data : TxtData)
  | mx (name exchange : String) (priority : Option JVal)
  | caa (name value tag : String) (flags : Int)
  | soaAns (name primary admin : String) (serial refresh retry expiration minimum : Int)
deriving DecidableEq, Repr

/-- A configured nameserver. -/
structure NsConfig where
  domain : String
  ip : String
deriving DecidableEq, Repr

/-- The configured SOA fields. -/
structure SoaConfig where
  admin : String := ""
  serial : Int := 0
  refresh : Int := 0
  retry : Int := 0
  expiration : Int := 0
  minimum : Int := 0
deriving DecidableEq, Repr

/-- The handler environment: its collaborators and configuration.  resolve
is zoneStore.resolve in short mode (none for a false result), anameResolve
is the cached resolver (none when it throws or returns false), parseIp is
ipaddr.parse composed with toNormalizedString (none when parse throws),
punyToASCII is punycode.toASCII, rand feeds the shuffle. -/
structure DnsEnv where
  resolve : String → String → Option (List HEntry)
  anameResolve : String → String → Option (List String)
  parseIp : String → Option String
  punyToASCII : String → String
  rand : Nat → Nat
  ns : List NsConfig
  soa : SoaConfig

/-- The keys of the dns2 packet TYPE table (reversedTypes membership). -/
def knownQTypes : List String :=
  ["A", "NS", "MD", "MF", "CNAME", "SOA", "MB", "MG", "MR", "NULL", "WKS", "PTR",
   "HINFO", "MINFO", "MX", "TXT", "AAAA", "SRV", "EDNS", "SPF", "AXFR", "MAILB",
   "MAILA", "ANY", "CAA"]

/-- Set insertion preserving first-insertion order. -/
def addUniqueType (l : List String) (x : String) : List String :=
  if l.contains x then l else l ++ [x]

/-- The record types consulted for a question type (processQuestion types
set): ANY adds A and AAAA; A, ANY, AAAA and TXT add CNAME; A and AAAA add
ANAME. -/
def expandTypes (q : String) : List String :=
  let l0 := [q]
  let l1 := if q = "ANY" then addUniqueType (addUniqueType l0 "A") "AAAA" else l0
  let l2 := if q = "A" ∨ q = "ANY" ∨ q = "AAAA" ∨ q = "TXT" then addUniqueType l1 "CNAME" else l1
  if q = "A" ∨ q = "AAAA" then addUniqueType l2 "ANAME" else l2

/-- The synthetic answers appended when no record resolved: one NS answer
per configured nameserver on NS questions, the nameserver address on A
questions for a nameserver's own domain, and the configured SOA with the
first nameserver as primary on SOA questions. -/
def synthAnswers (env : DnsEnv) (q domain : String) : List Answer :=
  (if q = "NS" then env.ns.map (fun n => Answer.nsAns domain n.domain) else [])
  ++ (env.ns.filter (fun n => decide (q = "A" ∧ domain = n.domain))).map
      (fun n => Answer.a domain (.s n.ip))
  ++ (if q = "SOA" then
        [Answer.soaAns domain (env.ns.headD ⟨"", ""⟩).domain env.soa.admin env.soa.serial
          env.soa.refresh env.soa.retry env.soa.expiration env.soa.minimum]
      else [])

/-- The addresses pushed for one ANAME entry: the cached resolver output for
the question type, shuffled when more than one. -/
def anameValue (env : DnsEnv) (q : String) (e : HEntry) : List String :=
  if q = "A" ∨ q = "AAAA" then
    match env.anameResolve (jvalStr (e.value.headD (.s ""))) q with
    | some vs => if vs.length > 1 then shuffle env.rand vs else vs
    | none => []
  else []

/-- The ANAME loop of processQuestion: synthetic entries of the question
type are pushed to the end of the entry list, in entry order. -/
def anameExpand (env : DnsEnv) (q : String) (entries : List HEntry) : List HEntry :=
  entries ++ entries.flatMap (fun e =>
    if e.type = "ANAME" ∧ ¬ e.value.isEmpty then
      (anameValue env q e).map (fun v => { type := q, domain := e.domain, value := [.s v] })
    else [])

/-- The at-sign substitution of CNAME targets and MX exchanges. -/
def atTarget (e : HEntry) : String :=
  if jvalStr (e.value.headD (.s "")) = "@" then e.zone else jvalStr (e.value.headD (.s ""))

/-- ipaddr.parse with toNormalizedString on value index 0 of an AAAA entry;
a non-string value throws inside parse, yielding none. -/
def entryAAAAAddr (env : DnsEnv) (e : HEntry) : Option String :=
  match e.value.headD (.s "") with
  | .s v => env.parseIp v
  | _ => none

/-- CAA flags: value index 2 coerced to a number, defaulting to zero. -/
def caaFlags (value : List JVal) : Int :=
  match value.get? 2 with
  | some v => jvalInt v
  | none => 0

/-- What the serialization loop body does for one entry: skip it (empty
value or unrecognized type), push an answer, push a CNAME answer and chase
its target, or abort the whole question (AAAA whose address ipaddr cannot
parse: the source returns from processQuestion inside the loop). -/
inductive EntryStep
  | skip
  | push (a : Answer)
  | pushChase (a : Answer) (target : String)
  | abort
deriving DecidableEq, Repr

/-- The serialization switch of processQuestion for one entry. -/
def entryStep (env : DnsEnv) (e : HEntry) : EntryStep :=
  if e.value.isEmpty then .skip
  else if e.type = "A" then .push (.a e.domain (e.value.headD (.s "")))
  else if e.type = "AAAA" then
    match entryAAAAAddr env e with
    | none => .abort
    | some addr => .push (.aaaa e.domain addr)
  else if e.type = "CNAME" then
    .pushChase (.cname e.domain (env.punyToASCII (atTarget e))) (env.punyToASCII (atTarget e))
  else if e.type = "NS" then
    .push (.nsAns e.domain (env.punyToASCII (jvalStr (e.value.headD (.s "")))))
  else if e.type = "TXT" then
    .push (.txt e.domain (formatTXTData (jvalStr (e.value.headD (.s "")))))
  else if e.type = "MX" then
    .push (.mx e.domain (env.punyToASCII (atTarget e)) (e.value.get? 1))
  else if e.type = "CAA" then
    .push (.caa e.domain (jvalStr (e.value.headD (.s "")))
      (jvalStr (e.value.getD 1 (.s ""))) (caaFlags e.value))
  else .skip

/-- The serialization loop of processQuestion: each entry contributes its
answer, a CNAME additionally contributes the answers of chasing its target
(when the depth guard depth below ten holds and the question type is not
CNAME), and an abort returns immediately, keeping the answers already
contributed and dropping every later entry.  none signals exhausted chase
fuel, which processQ_isSome below rules out. -/
def serializeEntries (chase : String → Option (List Answer)) (env : DnsEnv)
    (q : String) (depth : Nat) : List HEntry → Option (List Answer)
  | [] => some []
  | e :: rest =>
    match entryStep env e with
    | .skip => serializeEntries chase env q depth rest
    | .abort => some []
    | .push a => (serializeEntries chase env q depth rest).map (fun rs => a :: rs)
    | .pushChase a target =>
        match (if depth < 10 ∧ q ≠ "CNAME" then chase target else some []) with
        | none => none
        | some sub =>
            (serializeEntries chase env q depth rest).map (fun rs => a :: (sub ++ rs))

/-- The resolve phase of processQuestion: every expansion type is resolved
and post-processed, false results are dropped, and the per-type lists are
concatenated in expansion order. -/
def resolvedEntries (env : DnsEnv) (domain q : String) : List HEntry :=
  (expandTypes q).flatMap (fun ty =>
    match env.resolve domain ty with
    | some records => postprocessRecords env.rand ty records
    | none => [])

/-- dns-handler.js processQuestion.  The fuel argument only bounds the
CNAME chase recursion of the model; the source recursion is guarded by
depth below ten, and processQ_isSome proves fuel eleven minus depth always
suffices, which is the termination bound of the claim.  Unknown question
types answer nothing; an empty resolve result produces the synthetic
answers; otherwise the ANAME-expanded entry list is serialized, chasing
CNAME targets at depth plus one. -/
def processQ (env : DnsEnv) : Nat → String → String → Nat → Option (List Answer)
  | 0, _, _, _ => none
  | fuel + 1, domain0, q, depth =>
      if ¬ knownQTypes.contains q then some []
      else
        if (resolvedEntries env (ZoneStore.normalizeDomain domain0) q).isEmpty then
          some (synthAnswers env q (ZoneStore.normalizeDomain domain0))
        else
          serializeEntries (fun target => processQ env fuel target q (depth + 1)) env q depth
            (anameExpand env q (resolvedEntries env (ZoneStore.normalizeDomain domain0) q))

/-! ## C6: CNAME chase termination and depth bound -/

theorem serializeEntries_isSome (chase : String → Option (List Answer)) (env : DnsEnv)
    (q : String) (depth : Nat)
    (hc : depth < 10 → ∀ t, (chase t).isSome) :
    ∀ es : List HEntry, (serializeEntries chase env q depth es).isSome := by
  intro es
  induction es with
  | nil => simp [serializeEntries]
  | cons e rest ih =>
      cases hstep : entryStep env e with
      | skip => simpa only [serializeEntries, hstep] using ih
      | abort => simp [serializeEntries, hstep]
      | push a =>
          simp only [serializeEntries, hstep]
          simpa using ih
      | pushChase a target =>
          simp only [serializeEntries, hstep]
          by_cases hg : depth < 10 ∧ q ≠ "CNAME"
          · rw [if_pos hg]
            cases hct : chase target with
            | none =>
                have h2 := hc hg.1 target
                rw [hct] at h2
                simp at h2
            | some sub => simpa using ih
          · rw [if_neg hg]
            simpa using ih

theorem processQ_isSome (env : DnsEnv) :
    ∀ (fuel : Nat) (domain q : String) (depth : Nat),
      depth ≤ 10 → 11 ≤ fuel + depth → (processQ env fuel domain q depth).isSome := by
  intro fuel
  induction fuel with
  | zero =>
      intro domain q depth h1 h2
      omega
  | succ fuel ih =>
      intro domain q depth h1 h2
      simp only [processQ]
      split
      · simp
      · split
        · simp
        · exact serializeEntries_isSome _ env q depth
            (fun hd t => ih t q (depth + 1) (by omega) (by omega)) _

/-- The environment of a stored CNAME self-loop: loop.example.com has a
single CNAME record pointing at itself and nothing else resolves. -/
def cycleEnv : DnsEnv :=
  { resolve := fun d ty =>
      if d = "loop.example.com" ∧ ty = "CNAME" then
        some [{ domain := "loop.example.com", type := "CNAME", value := [.s "loop.example.com"] }]
      else none,
    anameResolve := fun _ _ => none,
    parseIp := fun _ => none,
    punyToASCII := fun s => s,
    rand := fun _ => 0,
    ns := [⟨"ns01.example.net", "192.0.2.1"⟩],
    soa := {} }

/-- C6.  CNAME chase termination and bound: for every environment (hence
every stored CNAME graph, cycles included), question and domain, the
handler needs no more than eleven minus depth chase levels — so from the
top-level call the nesting depth never exceeds ten — and on a stored CNAME
self-loop an A question terminates with exactly eleven answers, the
intermediate CNAME answer of each of the eleven visited depths appended to
the same response. -/
theorem cname_chase_depth_bound :
    (∀ (env : DnsEnv) (fuel : Nat) (domain q : String) (depth : Nat),
        depth ≤ 10 → 11 ≤ fuel + depth → (processQ env fuel domain q depth).isSome) ∧
    processQ cycleEnv 11 "loop.example.com" "A" 0 =
      some (List.replicate 11 (Answer.cname "loop.example.com" "loop.example.com")) :=
  ⟨fun env => processQ_isSome env, by decide⟩

/-- Witness for C6: the bound applied at the self-loop environment with
fuel eleven and depth zero. -/
theorem cname_chase_depth_bound_witness :
    (0 ≤ 10 ∧ 11 ≤ 11 + 0) ∧ (processQ cycleEnv 11 "loop.example.com" "A" 0).isSome :=
  ⟨⟨by decide, by decide⟩,
    cname_chase_depth_bound.1 cycleEnv 11 "loop.example.com" "A" 0 (by decide) (by decide)⟩

/-! ## C10: an unparseable AAAA address truncates the rest of the question -/

theorem entryStep_abort_of_bad_aaaa (env : DnsEnv) (e : HEntry)
    (ht : e.type = "AAAA") (hv : ¬ e.value.isEmpty) (hp : entryAAAAAddr env e = none) :
    entryStep env e = .abort := by
  unfold entryStep
  rw [if_neg (by simpa using hv), if_neg (by simp [ht]), if_pos ht, hp]

/-- C10.  When the serialization loop reaches an AAAA entry whose address
ipaddr cannot parse, the loop returns from the whole question at once:
serializing any prefix followed by the failing entry and any suffix gives
exactly the result of serializing the prefix followed by the failing entry
alone — every answer contributed by earlier entries (their CNAME chases
included) is kept, the failing entry contributes nothing, and every later
entry is dropped; in particular with the failing entry first nothing at all
is contributed. -/
theorem aaaa_parse_failure_truncates (env : DnsEnv) (chase : String → Option (List Answer))
    (q : String) (depth : Nat) (e : HEntry)
    (ht : e.type = "AAAA") (hv : ¬ e.value.isEmpty) (hp : entryAAAAAddr env e = none) :
    (∀ post : List HEntry, serializeEntries chase env q depth (e :: post) = some []) ∧
    (∀ pre post : List HEntry,
      serializeEntries chase env q depth (pre ++ e :: post) =
        serializeEntries chase env q depth (pre ++ [e])) := by
  have habort := entryStep_abort_of_bad_aaaa env e ht hv hp
  have hhead : ∀ post : List HEntry,
      serializeEntries chase env q depth (e :: post) = some [] := by
    intro post
    simp only [serializeEntries, habort]
  refine ⟨hhead, ?_⟩
  intro pre
  induction pre with
  | nil =>
      intro post
      rw [List.nil_append, List.nil_append, hhead, hhead]
  | cons p pre ih =>
      intro post
      rw [List.cons_append, List.cons_append]
      cases hstep : entryStep env p with
      | skip => simpa only [serializeEntries, hstep] using ih post
      | abort => simp only [serializeEntries, hstep]
      | push a =>
          simp only [serializeEntries, hstep]
          rw [ih post]
      | pushChase a target =>
          simp only [serializeEntries, hstep]
          cases hif : (if depth < 10 ∧ q ≠ "CNAME" then chase target else some []) with
          | none => rfl
          | some sub => rw [ih post]

/-- The failing AAAA entry of the C10 witness. -/
def badAAAAEntry : HEntry :=
  { domain := "x.example.com", type := "AAAA", value := [.s "bogus"] }

/-- The A entry before the failing entry in the C10 witness. -/
def beforeAEntry : HEntry :=
  { domain := "x.example.com", type := "A", value := [.s "192.0.2.7"] }

/-- The A entry after the failing entry in the C10 witness. -/
def afterAEntry : HEntry :=
  { domain := "x.example.com", type := "A", value := [.s "192.0.2.8"] }

/-- Witness for C10 at a concrete environment: an A entry, then an AAAA
entry with an unparseable address, then another A entry; the suffix is
dropped while the prefix answer is kept. -/
theorem aaaa_parse_failure_truncates_witness :
    badAAAAEntry.type = "AAAA" ∧
    ¬ badAAAAEntry.value.isEmpty ∧
    entryAAAAAddr cycleEnv badAAAAEntry = none ∧
    serializeEntries (fun _ => some []) cycleEnv "AAAA" 0
        ([beforeAEntry] ++ badAAAAEntry :: [afterAEntry]) =
      serializeEntries (fun _ => some []) cycleEnv "AAAA" 0 ([beforeAEntry] ++ [badAAAAEntry]) :=
  ⟨by decide, by decide, by decide,
    (aaaa_parse_failure_truncates cycleEnv (fun _ => some []) "AAAA" 0 badAAAAEntry
      (by decide) (by decide) (by decide)).2 [beforeAEntry] [afterAEntry]⟩

/-! ## C4 and C5: the AAAAA literal in the randomization switch -/

/-- A healthy AAAA entry (health status true). -/
def aaaaHealthy : HEntry :=
  { domain := "h.example.com", type := "AAAA",
    value := [.s "2001:db8::1", .s "https://check.example/a"], health := some true }

/-- An unhealthy AAAA entry (health status false). -/
def aaaaUnhealthy : HEntry :=
  { domain := "h.example.com", type := "AAAA",
    value := [.s "2001:db8::2", .s "https://check.example/b"], health := some false }

/-- A second unhealthy AAAA entry. -/
def aaaaUnhealthy2 : HEntry :=
  { domain := "h.example.com", type := "AAAA",
    value := [.s "2001:db8::3", .s "https://check.example/c"], health := some false }

/-- A healthy A entry. -/
def aHealthy : HEntry :=
  { domain := "h.example.com", type := "A",
    value := [.s "192.0.2.1", .s "https://check.example/d"], health := some true }

/-- An unhealthy A entry. -/
def aUnhealthy : HEntry :=
  { domain := "h.example.com", type := "A",
    value := [.s "192.0.2.2", .s "https://check.example/e"], health := some false }

/-- C4 (code bug).  Health filtering misses AAAA: the filtering revision of
the randomization switch matches the literal AAAAA, which is never a
resolve type, so a multi-entry AAAA record list passes through with its
unhealthy entries kept, for every random stream — while the filter the A
case applies drops the unhealthy entry, and on an all-unhealthy list
returns the full set (fail-open), exactly as the claim demands for both
types. -/
theorem aaaa_health_filter_never_applied :
    (∀ rand : Nat → Nat,
      postprocessRecordsFiltered rand "AAAA" [aaaaHealthy, aaaaUnhealthy] =
        [aaaaHealthy, aaaaUnhealthy]) ∧
    filterUnhealthy [aaaaHealthy, aaaaUnhealthy] = [aaaaHealthy] ∧
    filterUnhealthy [aaaaUnhealthy, aaaaUnhealthy2] = [aaaaUnhealthy, aaaaUnhealthy2] ∧
    postprocessRecordsFiltered (fun _ => 0) "A" [aHealthy, aUnhealthy] = [aHealthy] :=
  ⟨fun _ => rfl, by decide, by decide, by decide⟩

/-- C5 (code bug).  Randomization misses AAAA: the published switch matches
the literals A and AAAAA, so a multi-entry AAAA record list is returned in
stored order for every random stream — no permutation is ever applied —
while the A case does shuffle (a random stream drawing zero reverses a
two-entry list). -/
theorem aaaa_randomization_never_applied :
    (∀ rand : Nat → Nat,
      postprocessRecords rand "AAAA" [aaaaHealthy, aaaaUnhealthy] =
        [aaaaHealthy, aaaaUnhealthy]) ∧
    postprocessRecords (fun _ => 0) "A" [aHealthy, aUnhealthy] = [aUnhealthy, aHealthy] :=
  ⟨fun _ => rfl, by decide⟩

/-! ## Cached external resolver (cached-resolver.js)

The resolver is embedded after its cache read: the parsed cached record
(none when the key is missing or unparsable) and the upstream query outcome
are inputs; the outcome and the cache write performed are outputs.  Times
are epoch milliseconds. -/

/-- A cache entry at d:cache:target:TYPE: a positive entry carries expires
and data; a negative entry carries the error message and code and a false
data field (modelled as none). -/
structure CacheRecord where
  expires : Option Nat := none
  data : Option (List String) := none
  error : Option String := none
  code : Option String := none
deriving DecidableEq, Repr

/-- An upstream resolution error: message and optional code. -/
structure ResolveError where
  message : String
  code : Option String := none
deriving DecidableEq, Repr

/-- cached-resolver.js formatResult on a present record: re-throw a cached
error, otherwise return the cached data. -/
def formatResult (record : CacheRecord) : Except ResolveError (Option (List String)) :=
  match record.error with
  | some msg => .error ⟨msg, record.code⟩
  | none => .ok record.data

/-- The caller's options object (absent fields are undefined). -/
structure ResolverCallOpts where
  minTtl : Option Nat := none
  maxTtl : Option Nat := none
  errorMinTtl : Option Nat := none
  errorMaxTtl : Option Nat := none
  errorTtl : Option Nat := none
deriving DecidableEq, Repr

/-- The options after Object.assign with the defaults. -/
structure MergedOpts where
  minTtl : Nat
  maxTtl : Nat
  errorMinTtl : Nat
  errorMaxTtl : Nat
  errorTtl : Option Nat
deriving DecidableEq, Repr

/-- Object.assign of the cachedResolver defaults with the caller's options.
The defaults define minTtl, maxTtl, errorMinTtl and errorMaxTtl — but no
errorTtl, although the doc comment of the source advertises an errorTtl
default of one minute — so errorTtl is present only when the caller passes
it. -/
def mergedOpts (o : ResolverCallOpts) : MergedOpts :=
  { minTtl := o.minTtl.getD 600000,
    maxTtl := o.maxTtl.getD 28800000,
    errorMinTtl := o.errorMinTtl.getD 60000,
    errorMaxTtl := o.errorMaxTtl.getD 3600000,
    errorTtl := o.errorTtl }

/-- Math.round of a millisecond count divided by 1000. -/
def roundToSeconds (ms : Nat) : Nat :=
  (ms + 500) / 1000

/-- The cache write performed by a cachedResolver call: a positive entry
with its key TTL in seconds, or a negative entry whose TTL is none when the
expire argument is NaN (undefined errorTtl divided by 1000). -/
inductive CacheWrite
  | positive (expires : Nat) (data : Option (List String)) (ttlSeconds : Nat)
  | negative (error : String) (code : Option String) (ttlSeconds : Option Nat)
deriving DecidableEq, Repr

/-- cached-resolver.js cachedResolver after the cache read.  A fresh cached
record (truthy expires above now) is returned, or its cached error
re-thrown, without consulting upstream.  Otherwise upstream is queried: on
success with a falsy result and a cached record present the cached record
is returned; on success the positive entry is written with expires now plus
minTtl and key TTL maxTtl over 1000; on failure a cached record, if any, is
returned via formatResult, else the negative entry is written with key TTL
errorTtl over 1000 — none (NaN) under the default options — and the error
is propagated. -/
def cachedResolver (opts : ResolverCallOpts) (now : Nat) (cached : Option CacheRecord)
    (upstream : Except ResolveError (Option (List String))) :
    Except ResolveError (Option (List String)) × Option CacheWrite :=
  match cached with
  | some record =>
      if record.expires.getD 0 > now then (formatResult record, none)
      else
        match upstream with
        | .ok resolved =>
            if resolved.isNone then (formatResult record, none)
            else
              (.ok resolved,
                some (.positive (now + (mergedOpts opts).minTtl) resolved
                  (roundToSeconds (mergedOpts opts).maxTtl)))
        | .error _ => (formatResult record, none)
  | none =>
      match upstream with
      | .ok resolved =>
          (.ok resolved,
            some (.positive (now + (mergedOpts opts).minTtl) resolved
              (roundToSeconds (mergedOpts opts).maxTtl)))
      | .error e =>
          (.error e,
            some (.negative e.message e.code ((mergedOpts opts).errorTtl.map roundToSeconds)))

/-- The upstream failure used by the C7 evaluation. -/
def c7Error : ResolveError :=
  { message := "queryA ENOTFOUND example.invalid", code := some "ENOTFOUND" }

/-- A stale positive cache record (expired before the evaluation time). -/
def c7StaleRecord : CacheRecord :=
  { expires := some 4000, data := some ["192.0.2.5"] }

/-- A cached negative record carrying an earlier error. -/
def c7ErrorRecord : CacheRecord :=
  { data := none, error := some "queryA ETIMEOUT example.invalid", code := some "ETIMEOUT" }

/-- C7 (code bug).  Failure semantics of cachedResolver: with a cached
record present an upstream failure returns the stale cached value, or
re-throws the cached error, and writes nothing; without one the negative
entry data false, error, code is written and the error is propagated — but
its key TTL is not the claimed one-minute default: the merged options carry
no errorTtl (the defaults name errorMinTtl and errorMaxTtl instead, against
the function's own doc comment), so expire receives NaN; only a caller
passing errorTtl of 60000 gets the sixty-second TTL the claim describes. -/
theorem cached_resolver_error_ttl_missing :
    (mergedOpts {}).errorTtl = none ∧
    cachedResolver {} 5000 none (.error c7Error) =
      (.error c7Error, some (.negative "queryA ENOTFOUND example.invalid"
        (some "ENOTFOUND") none)) ∧
    (cachedResolver { errorTtl := some 60000 } 5000 none (.error c7Error)).2 =
      some (.negative "queryA ENOTFOUND example.invalid" (some "ENOTFOUND") (some 60)) ∧
    cachedResolver {} 5000 (some c7StaleRecord) (.error c7Error) =
      (.ok (some ["192.0.2.5"]), none) ∧
    cachedResolver {} 5000 (some c7ErrorRecord) (.error c7Error) =
      (.error ⟨"queryA ETIMEOUT example.invalid", some "ETIMEOUT"⟩, none) :=
  ⟨rfl, rfl, by decide, rfl, rfl⟩

/-! ## Certificate manager (certs.js)

getCertificate is embedded at its pre-lock cache check: the formatted hash
under the md5 cache key is an input (none when absent), and the outcome is
either the stored certificate data returned as-is or the locked renewal
continuation.  Dates are epoch milliseconds. -/

/-- The formatted certificate hash under d:acme:keys of the md5 key. -/
structure CertData where
  key : String := ""
  cert : String := ""
  chain : String := ""
  validFrom : Nat := 0
  expires : Nat := 0
  dnsNames : List String := []
  issuer : String := ""
  status : String := ""
deriving DecidableEq, Repr

/-- The outcome of the pre-lock cache check of getCertificate. -/
inductive CertCacheOutcome
  | useCached (cd : CertData)
  | renew
deriving DecidableEq, Repr

/-- Thirty days in milliseconds, the renewal threshold of getCertificate. -/
def thirtyDaysMs : Nat := 30 * 24 * 3600 * 1000

/-- getDomainList normalization before the zone checks: trim and lowercase
each domain (punycode.toASCII as identity on ASCII), drop empties, sort,
and deduplicate preserving the sorted order; the cache key is the md5 of
these joined by colons. -/
def prepCertDomains (ds : List String) : List String :=
  (insertionSort (fun a b => decide (a ≤ b))
    ((ds.map (fun d => strTrim (strLower d))).filter (fun d => decide (d ≠ "")))).dedup

/-- The pre-lock cache check of certs.js getCertificate: when force is
unset, a cached entry exists and its expires date lies beyond now plus
thirty days, the stored certificate data is returned unchanged; otherwise
the call proceeds to the locked renewal path. -/
def getCertificateCacheStep (cached : Option CertData) (now : Nat) (force : Bool) :
    CertCacheOutcome :=
  match cached with
  | some cd => if ¬ force ∧ cd.expires > now + thirtyDaysMs then .useCached cd else .renew
  | none => .renew

/-- C8.  Certificate cache reuse: with force unset and a cached entry whose
expires date is later than now plus thirty days, getCertificate returns the
stored certificate data unchanged, with no issuance; and two such calls at
times both within the threshold return identical certificate material. -/
theorem cert_cache_hit_returns_stored (cd : CertData) (now1 now2 : Nat)
    (h1 : cd.expires > now1 + thirtyDaysMs) (h2 : cd.expires > now2 + thirtyDaysMs) :
    getCertificateCacheStep (some cd) now1 false = .useCached cd ∧
    getCertificateCacheStep (some cd) now2 false =
      getCertificateCacheStep (some cd) now1 false := by
  have e1 : getCertificateCacheStep (some cd) now1 false = .useCached cd := by
    simp [getCertificateCacheStep, h1]
  have e2 : getCertificateCacheStep (some cd) now2 false = .useCached cd := by
    simp [getCertificateCacheStep, h2]
  exact ⟨e1, e2.trans e1.symm⟩

/-- The cached certificate data of the C8 witness. -/
def c8Cert : CertData :=
  { key := "PEM-KEY", cert := "PEM-CERT", chain := "PEM-CHAIN", validFrom := 1000,
    expires := 8000000000, dnsNames := ["a.test", "*.a.test"], issuer := "R3",
    status := "valid" }

/-- Witness for C8 at a concrete cached certificate and two times within
the thirty-day threshold. -/
theorem cert_cache_hit_returns_stored_witness :
    c8Cert.expires > 1000000 + thirtyDaysMs ∧
    c8Cert.expires > 2000000 + thirtyDaysMs ∧
    getCertificateCacheStep (some c8Cert) 1000000 false = .useCached c8Cert :=
  ⟨by decide, by decide,
    (cert_cache_hit_returns_stored c8Cert 1000000 2000000 (by decide) (by decide)).1⟩

/-! ## Public HTTP/HTTPS server (the request handler)

The handler is embedded after its URL-record resolve: the resolve result,
the incoming x-cdn-loop header and the request path and query are inputs;
the outputs are the headers set on the response and the outcome (loop
rejection, proxying, a redirect, or the 404 template). -/

/-- Substring search on character lists. -/
def hasSubList (needle : List Char) : List Char → Bool
  | [] => needle.isEmpty
  | c :: rest => needle.isPrefixOf (c :: rest) || hasSubList needle rest

/-- Substring test, standing in for the regular expression test of the
handler. -/
def strContainsSub (needle haystack : String) : Bool :=
  hasSubList needle.data haystack.data

/-- A parsed target URL of a URL record (the WHATWG URL fields the handler
reads: origin, pathname, search). -/
structure TargetUrl where
  origin : String
  pathname : String
  search : String
deriving DecidableEq, Repr

/-- The value tuple of a URL record: target URL, optional status code and
proxy flag. -/
structure UrlValue where
  url : TargetUrl
  code : Option Nat := none
  proxy : Bool := false
deriving DecidableEq, Repr

/-- A resolve entry as inspected by the find of the handler; only entries
of type URL with a non-empty value become the redirect target. -/
structure UrlEntry where
  type : String := "URL"
  value : Option UrlValue := none
deriving DecidableEq, Repr

/-- The security headers the handler sets on every response; the loop
marker X-CDN-Loop carries the value PostalDNS. -/
def securityHeaders : List (String × String) :=
  [("X-Content-Type-Options", "nosniff"),
   ("X-XSS-Protection", "1; mode=block"),
   ("X-Frame-Options", "DENY"),
   ("Strict-Transport-Security", "max-age=15552000; includeSubDomains; preload"),
   ("X-CDN-Loop", "PostalDNS")]

/-- The loop test of the handler: the PostalDNS regular expression applied
to the incoming x-cdn-loop header; an absent header stringifies to the
text undefined, which does not match. -/
def cdnLoopDetected (h : Option String) : Bool :=
  match h with
  | some v => strContainsSub "PostalDNS" v
  | none => strContainsSub "PostalDNS" "undefined"

/-- The find over the resolve result for the first usable URL record. -/
def findUrlTarget (records : Option (List UrlEntry)) : Option UrlValue :=
  match records with
  | none => none
  | some rs =>
      match rs.find? (fun rr => rr.type == "URL" && rr.value.isSome) with
      | some rr => rr.value
      | none => none

/-- The outcome of one public request. -/
inductive PublicOutcome
  | loopError
  | proxied (origin : String)
  | redirect (code : Nat) (location : String)
  | notFound
deriving DecidableEq, Repr

/-- The request handler of the public server after its URL-record resolve:
the security headers are set on the response, a detected CDN loop throws
(the error page path), a proxy-flagged target is reverse-proxied to its
origin, a target whose path is the bare root with no query aliases the
request path and query, any other target is redirected to verbatim, with
the record's status code defaulting to 301, and without a target the 404
template is rendered. -/
def publicHandler (records : Option (List UrlEntry)) (xCdnLoop : Option String)
    (reqPathname reqSearch : String) : List (String × String) × PublicOutcome :=
  (securityHeaders,
    if cdnLoopDetected xCdnLoop then .loopError
    else
      match findUrlTarget records with
      | none => .notFound
      | some t =>
          if t.proxy then .proxied t.url.origin
          else if t.url.pathname = "/" ∧ t.url.search = "" then
            .redirect (t.code.getD 301) (t.url.origin ++ reqPathname ++ reqSearch)
          else
            .redirect (t.code.getD 301) (t.url.origin ++ t.url.pathname ++ t.url.search))

/-- The URL record used by the C9 evaluations. -/
def c9Entry : UrlEntry :=
  { type := "URL",
    value := some { url := { origin := "https://target.example", pathname := "/", search := "" } } }

/-- C9 counterexample.  The loop marker of the handler is PostalDNS, not
PendingDNS: the X-CDN-Loop response header does not carry PendingDNS, and a
request arriving with X-CDN-Loop PendingDNS is not rejected — it is
redirected as if unmarked. -/
theorem cdn_loop_pendingdns_refuted :
    securityHeaders.lookup "X-CDN-Loop" = some "PostalDNS" ∧
    securityHeaders.lookup "X-CDN-Loop" ≠ some "PendingDNS" ∧
    (publicHandler (some [c9Entry]) (some "PendingDNS") "/" "").2 =
      .redirect 301 "https://target.example/" ∧
    (publicHandler (some [c9Entry]) (some "PendingDNS") "/" "").2 ≠ .loopError := by
  refine ⟨by decide, by decide, by decide, by decide⟩

/-- C9 as amended.  Every response of the public request handler carries
the header X-CDN-Loop PostalDNS, and every request whose X-CDN-Loop header
matches PostalDNS is rejected with the thrown loop error instead of being
redirected or proxied. -/
theorem cdn_loop_postaldns_enforced :
    (∀ (records : Option (List UrlEntry)) (x : Option String) (p s : String),
      (publicHandler records x p s).1.lookup "X-CDN-Loop" = some "PostalDNS") ∧
    (∀ (records : Option (List UrlEntry)) (x : Option String) (p s : String),
      cdnLoopDetected x = true → (publicHandler records x p s).2 = .loopError) := by
  constructor
  · intro records x p s
    rfl
  · intro records x p s hx
    unfold publicHandler
    simp only [hx]
    rfl

/-- Witness for C9 as amended: a request marked with an X-CDN-Loop header
containing PostalDNS is rejected. -/
theorem cdn_loop_postaldns_enforced_witness :
    cdnLoopDetected (some "a PostalDNS b") = true ∧
    (publicHandler (some [c9Entry]) (some "a PostalDNS b") "/" "").2 = .loopError :=
  ⟨by decide,
    cdn_loop_postaldns_enforced.2 (some [c9Entry]) (some "a PostalDNS b") "/" "" (by decide)⟩
